import Mathlib

/-!
# Verification of the `VectorStorage` core (src/lib/vector-storage/VectorStorage.ts)

Shallow embedding of the vector store: documents with embedding vectors,
similarity search, hit counting, and size-bounded LRU eviction.

Modelling conventions:
* JS floating-point numbers are modelled by exact rationals (`ℚ`).
* `Math.sqrt` is modelled by a parameter `sqrtFn : ℚ → ℚ`: the code only uses
  the square root as a black box, so every statement is quantified over it.
* The embedding provider (`embedTextsFn`) is a parameter
  `embedTextsFn : List String → List (List ℚ)`.
* The IndexedDB backend is modelled by a `db` field holding the record list of
  the `documents` object store; `getAll` reads it and the save path replaces it.
* JS mutation of shared document objects is made explicit: operations return a
  new store state, and `similaritySearch` builds spread copies of the matched
  documents exactly where the code does.
-/

/-- A stored document (`IVSDocument<T>`).  `metadata` is an opaque caller
payload; we model it by the list of its field values (all that the code ever
inspects, via `Object.values`).  The optional JS field `hits` is read as
`hits ?? 0` at every use site, so it is modelled as a `Nat` starting at 0. -/
structure IVSDocument where
  text : String
  metadata : List Nat
  timestamp : Int
  vector : List ℚ
  vectorMag : ℚ
  hits : Nat
deriving Repr, DecidableEq

/-- The mutable state of a `VectorStorage` instance: the in-memory document
array, the IndexedDB mirror, and the configuration that matters for the
claims (`maxSizeInMB`, the training-mode flag). -/
structure VectorStorage where
  documents : List IVSDocument
  db : List IVSDocument
  maxSizeInMB : ℚ
  trainingMode : Bool
deriving Repr, DecidableEq

/-- `reduce((sum, val) => sum + val * val, 0)` — the sum of squares used by
both magnitude computations. -/
def sumOfSquares (v : List ℚ) : ℚ :=
  v.foldl (fun sum val => sum + val * val) 0

/-- `getCosineSimilarityScore(dotProduct, magnitudeA, magnitudeB)`:
`dotProduct / (magnitudeA * magnitudeB)`.  (In JS a zero denominator produces
a non-number; over `ℚ` division by zero returns 0, and score-level statements
are made in regimes where the denominator is nonzero.) -/
def getCosineSimilarityScore (dotProduct magnitudeA magnitudeB : ℚ) : ℚ :=
  dotProduct / (magnitudeA * magnitudeB)

/-- `normalizeScore(score)`: `(score + 1) / 2`. -/
def normalizeScore (score : ℚ) : ℚ :=
  (score + 1) / 2

/-- The running loop of
`doc.vector.reduce((sum, val, i) => sum + val * queryVector[i], 0)`:
`i` is the current index into the query vector, `acc` the accumulated sum. -/
def dotAux (q : List ℚ) : Nat → List ℚ → ℚ → ℚ
  | _, [], acc => acc
  | i, val :: rest, acc => dotAux q (i + 1) rest (acc + val * q.getD i 0)

/-- `doc.vector.reduce((sum, val, i) => sum + val * queryVector[i], 0)` — the
dot product iterates over `doc.vector`'s indices and reads `queryVector[i]`.
An out-of-range read is `undefined` in JS (making the sum a non-number); the
model reads 0 there, and statements about score values carry the bound
`v.length ≤ q.length` under which the model is exact. -/
def dotProduct (v q : List ℚ) : ℚ :=
  dotAux q 0 v 0

section Config

variable (sqrtFn : ℚ → ℚ) (embedTextsFn : List String → List (List ℚ))

/-- `calcVectorMagnitude(doc)`: `Math.sqrt` of the sum of squares of
`doc.vector`. -/
def calcVectorMagnitude (doc : IVSDocument) : ℚ :=
  sqrtFn (sumOfSquares doc.vector)

/-- `calculateMagnitude(embedding)`: `Math.sqrt` of the sum of squares. -/
def calculateMagnitude (embedding : List ℚ) : ℚ :=
  sqrtFn (sumOfSquares embedding)

/-- `calculateSimilarityScores(filteredDocuments, queryVector, queryMagnitude)`:
pairs each document with
`normalizeScore(getCosineSimilarityScore(dot, doc.vectorMag, queryMagnitude))`. -/
def calculateSimilarityScores (filteredDocuments : List IVSDocument)
    (queryVector : List ℚ) (queryMagnitude : ℚ) : List (IVSDocument × ℚ) :=
  filteredDocuments.map (fun doc =>
    (doc, normalizeScore
      (getCosineSimilarityScore (dotProduct doc.vector queryVector)
        doc.vectorMag queryMagnitude)))

end Config

/-- Modelled from the spec: `filterDocuments(documents, filterOptions)` lives
in `common/helpers`, outside the sources.  Per the spec it returns the
documents whose metadata satisfies the predicate; an absent predicate returns
all documents unchanged, order preserved. -/
def filterDocuments (documents : List IVSDocument)
    (filterOptions : Option (List Nat → Bool)) : List IVSDocument :=
  match filterOptions with
  | none => documents
  | some p => documents.filter (fun doc => p doc.metadata)

/-- Modelled from the spec: `getObjectSizeInMB` lives in `common/helpers`,
outside the sources.  Per the spec it serializes the whole document set and
measures the encoded size in megabytes.  The encoded byte count is modelled
JSON-like: two bracket bytes plus, per document, its text length, eight bytes
per vector entry and a fixed overhead for the remaining fields. -/
def docBytes (doc : IVSDocument) : Nat :=
  doc.text.length + 8 * doc.vector.length + 40

/-- Serialized byte count of the whole document set (see `docBytes`). -/
def encodedBytes (documents : List IVSDocument) : Nat :=
  2 + (documents.map docBytes).sum

/-- Modelled from the spec: serialized size of the document set in MB. -/
def getObjectSizeInMB (documents : List IVSDocument) : ℚ :=
  (encodedBytes documents : ℚ) / 1048576

/-- The JS sort comparator
`(a, b) => (a.hits ?? 0) - (b.hits ?? 0) || a.timestamp - b.timestamp`
as a ≤-test: `a` sorts no later than `b` when the comparator is ≤ 0, i.e.
ascending by hits, then by timestamp. -/
def lruLe (a b : IVSDocument) : Bool :=
  a.hits < b.hits || (a.hits == b.hits && a.timestamp ≤ b.timestamp)

/-- The `while (getObjectSizeInMB(documents) > maxSizeInMB) documents.shift()`
loop: drop the head while the serialized size is over budget.  (JS `shift` on
an empty array is a no-op, so on an empty over-budget list the loop would spin
forever; the model returns the empty list in that unreachable regime.) -/
def evictLoop (maxSizeInMB : ℚ) : List IVSDocument → List IVSDocument
  | [] => []
  | d :: rest =>
    if getObjectSizeInMB (d :: rest) > maxSizeInMB then evictLoop maxSizeInMB rest
    else d :: rest

/-- `removeDocsLRU()`: skipped entirely in training mode; otherwise, when the
serialized size exceeds `maxSizeInMB`, sort ascending by
`(hits ?? 0, timestamp)` (JS `Array.prototype.sort` is stable — modelled by
`List.mergeSort`) and shift documents from the front until within budget. -/
def removeDocsLRU (s : VectorStorage) : VectorStorage :=
  if s.trainingMode then s
  else if getObjectSizeInMB s.documents > s.maxSizeInMB then
    { s with documents := evictLoop s.maxSizeInMB (s.documents.mergeSort lruLe) }
  else s

/-- `saveToIndexDbStorage()`: one transaction clears the backend store and
rewrites every in-memory document.  The backend's `text` index is declared
unique, so a batch with a repeated text aborts the transaction (the error is
caught and logged) and the backend keeps its previous contents. -/
def saveToIndexDbStorage (s : VectorStorage) : VectorStorage :=
  if (s.documents.map (·.text)).Nodup then { s with db := s.documents } else s

/-- The constructor: `trainingMode` is set to `true`, then (when an embedding
credential or custom function is configured) `loadFromIndexDbStorage` hydrates
the in-memory array from the backend and runs one eviction pass. -/
def initStore (db : List IVSDocument) (maxSizeInMB : ℚ) : VectorStorage :=
  removeDocsLRU
    { documents := db, db := db, maxSizeInMB := maxSizeInMB, trainingMode := true }

/-- JS `String.prototype.trim()`: strip leading and trailing whitespace.
Implemented directly on the character list so that it evaluates inside the
kernel. -/
def jsTrim (s : String) : String :=
  ⟨((s.data.dropWhile Char.isWhitespace).reverse.dropWhile Char.isWhitespace).reverse⟩

/-- The filter predicate inside `addDocuments`: a candidate survives when its
trimmed text is nonempty, no in-memory document has the same text, and its
text is not among the texts read from the backend. -/
def isNewDocument (inMemory : List IVSDocument) (existingTexts : List String)
    (doc : IVSDocument) : Bool :=
  jsTrim doc.text ≠ "" &&
    !(inMemory.any (fun d => d.text == doc.text)) &&
    !(existingTexts.contains doc.text)

/-- Result of `addDocuments`, instrumented with how many times the embedding
provider was invoked and whether a persist was attempted. -/
structure AddOutcome where
  store : VectorStorage
  returned : List IVSDocument
  embedCalls : Nat
  persisted : Bool
deriving Repr, DecidableEq

section Ops

variable (sqrtFn : ℚ → ℚ) (embedTextsFn : List String → List (List ℚ))

/-- `addDocuments(documents)`: read all backend records, drop candidates with
blank text or a text already present in memory or in the backend; if nothing
survives return `[]` with no embedding call and no persist; otherwise embed
the surviving texts in one batch, assign each surviving candidate its vector
and the freshly computed magnitude, append them to the in-memory array, run
eviction, persist, and return the inserted documents.  (A missing vector from
a misbehaving provider is read as `[]`; the provider contract rules that
out, and theorems that depend on it assume the contract.) -/
def addDocuments (s : VectorStorage) (documents : List IVSDocument) : AddOutcome :=
  let existingTexts := s.db.map (·.text)
  let newDocuments := documents.filter (isNewDocument s.documents existingTexts)
  if newDocuments.isEmpty then
    { store := s, returned := [], embedCalls := 0, persisted := false }
  else
    let newVectors := embedTextsFn (newDocuments.map (·.text))
    let embedded := newDocuments.enum.map (fun p =>
      let v := newVectors.getD p.1 []
      { p.2 with vector := v, vectorMag := sqrtFn (sumOfSquares v) })
    let s1 := removeDocsLRU { s with documents := s.documents ++ embedded }
    { store := saveToIndexDbStorage s1, returned := embedded,
      embedCalls := 1, persisted := true }

/-- The document literal built by `addText` / `addTexts` before insertion. -/
def mkDoc (text : String) (metadata : List Nat) (now : Int) : IVSDocument :=
  { text := text, metadata := metadata, timestamp := now,
    vector := [], vectorMag := 0, hits := 0 }

/-- `addTexts(texts, metadatas)`: throws when the two arrays have different
lengths; otherwise builds one candidate document per text (all stamped with
the same `Date.now()`) and delegates to `addDocuments`. -/
def addTexts (s : VectorStorage) (texts : List String) (metadatas : List (List Nat))
    (now : Int) : Except String AddOutcome :=
  if texts.length ≠ metadatas.length then
    .error "The lengths of texts and metadata arrays must match."
  else
    .ok (addDocuments sqrtFn embedTextsFn s
      ((texts.zip metadatas).map (fun p => mkDoc p.1 p.2 now)))

end Ops

/-- The JS sort comparator `(a, b) => b[1] - a[1]` over `[document, score]`
pairs, as a ≤-test: `a` sorts no later than `b` when `b`'s score is at most
`a`'s, i.e. descending by score. -/
def scoreLe (a b : IVSDocument × ℚ) : Bool :=
  b.2 ≤ a.2

/-- `updateHitCounters(results)`: sets `hits = (hits ?? 0) + 1` on each element
of the list it is handed.  In `similaritySearch` that list holds the spread
copies `{ ...pair[0], score: pair[1] }`, not the stored documents. -/
def updateHitCounters (results : List (IVSDocument × ℚ)) : List (IVSDocument × ℚ) :=
  results.map (fun p => ({ p.1 with hits := p.1.hits + 1 }, p.2))

/-- A returned search item: the spread copy of a document plus its score.
`delete result.vector` / `delete result.vectorMag` (when `includeValues` is
not set) are modelled by `Option` fields. -/
structure IVSSimilaritySearchItem where
  text : String
  metadata : List Nat
  timestamp : Int
  vector : Option (List ℚ)
  vectorMag : Option ℚ
  hits : Nat
  score : ℚ
deriving Repr, DecidableEq

/-- Build the returned item from a (hit-updated) copy/score pair, stripping
`vector`/`vectorMag` unless `includeValues` is set. -/
def stripValues (includeValues : Bool) (p : IVSDocument × ℚ) :
    IVSSimilaritySearchItem :=
  { text := p.1.text, metadata := p.1.metadata, timestamp := p.1.timestamp,
    vector := if includeValues then some p.1.vector else none,
    vectorMag := if includeValues then some p.1.vectorMag else none,
    hits := p.1.hits, score := p.2 }

/-- Result of `similaritySearch`: the echoed query, the returned items, and
the post-call store state. -/
structure SearchOutcome where
  store : VectorStorage
  similarItems : List IVSSimilaritySearchItem
  queryText : String
  queryEmbedding : List ℚ
deriving Repr, DecidableEq

section Search

variable (sqrtFn : ℚ → ℚ) (embedTextsFn : List String → List (List ℚ))

/-- The scored pairs of a search, before sorting: every document surviving the
metadata filter, paired with its similarity score. -/
def searchScorePairs (s : VectorStorage) (queryEmbedding : List ℚ)
    (filterOptions : Option (List Nat → Bool)) : List (IVSDocument × ℚ) :=
  calculateSimilarityScores (filterDocuments s.documents filterOptions)
    queryEmbedding (calculateMagnitude sqrtFn queryEmbedding)

/-- `similaritySearch({ query, k, filterOptions, includeValues })`: embed the
query, score the filtered documents, sort the pairs descending by score with
the stable JS sort, take the top `k`, build the spread copies with their
scores, increment `hits` on those copies, and — when at least one result was
produced — run eviction and persist.  The stored documents themselves are
never written to: the hit update lands on the copies. -/
def similaritySearch (s : VectorStorage) (query : String) (k : Nat)
    (filterOptions : Option (List Nat → Bool)) (includeValues : Bool) :
    SearchOutcome :=
  let queryEmbedding := (embedTextsFn [query]).getD 0 []
  let sortedPairs :=
    (searchScorePairs sqrtFn s queryEmbedding filterOptions).mergeSort scoreLe
  let results := updateHitCounters (sortedPairs.take k)
  let s1 := if results.length > 0 then saveToIndexDbStorage (removeDocsLRU s) else s
  { store := s1,
    similarItems := results.map (stripValues includeValues),
    queryText := query,
    queryEmbedding := queryEmbedding }

/-- `deleteDocumentsByMetadata(documentId)`: keep only documents whose
metadata values do not contain the id, then persist. -/
def deleteDocumentsByMetadata (s : VectorStorage) (documentId : Nat) :
    VectorStorage :=
  saveToIndexDbStorage
    { s with documents := s.documents.filter (fun d => !(d.metadata.contains documentId)) }

end Search

/-- The public operations of a store instance, for stating invariants that
hold after every operation. -/
inductive Op where
  | insert (documents : List IVSDocument)
  | search (query : String) (k : Nat) (filterOptions : Option (List Nat → Bool))
      (includeValues : Bool)
  | load
  | startTraining
  | endTraining
  | deleteByMetadata (documentId : Nat)

/-- Apply one public operation to the store state. -/
def applyOp (sqrtFn : ℚ → ℚ) (embedTextsFn : List String → List (List ℚ))
    (s : VectorStorage) : Op → VectorStorage
  | .insert documents => (addDocuments sqrtFn embedTextsFn s documents).store
  | .search query k filterOptions includeValues =>
    (similaritySearch sqrtFn embedTextsFn s query k filterOptions includeValues).store
  | .load => removeDocsLRU { s with documents := s.db }
  | .startTraining => { s with trainingMode := true }
  | .endTraining => { s with trainingMode := false }
  | .deleteByMetadata documentId => deleteDocumentsByMetadata s documentId

/-- Run a sequence of public operations from a state. -/
def runOps (sqrtFn : ℚ → ℚ) (embedTextsFn : List String → List (List ℚ))
    (s : VectorStorage) (ops : List Op) : VectorStorage :=
  ops.foldl (applyOp sqrtFn embedTextsFn) s

/-- The per-operation side condition of the amended uniqueness claim: an
insert batch must not repeat a text (the code checks candidates only against
the pre-batch state, so a repeated new text would be inserted twice). -/
def insertBatchTextsNodup : Op → Prop
  | Op.insert documents => (documents.map (·.text)).Nodup
  | _ => True

/-- The text invariants of a store state: texts are duplicate-free and
non-blank, both in memory and in the backend mirror. -/
def textsInvariant (s : VectorStorage) : Prop :=
  (s.documents.map (·.text)).Nodup ∧ (s.db.map (·.text)).Nodup ∧
    (∀ d ∈ s.documents, jsTrim d.text ≠ "") ∧ (∀ d ∈ s.db, jsTrim d.text ≠ "")

/-- A document's cached magnitude agrees with `Math.sqrt` (modelled by
`sqrtFn`) of the sum of squares of its vector — the L2 norm of `vector`. -/
def magConsistent (sqrtFn : ℚ → ℚ) (d : IVSDocument) : Prop :=
  d.vectorMag = sqrtFn (sumOfSquares d.vector)

/-- A constant embedding provider for concrete evaluations: every text maps
to the one-dimensional vector `[1]`. -/
def embedConst1 : List String → List (List ℚ) :=
  fun ts => ts.map fun _ => [1]

/-- Sample document; `docA` and `docB` carry identical vectors, hence get
identical scores in any search. -/
def docA : IVSDocument :=
  { text := "a", metadata := [], timestamp := 0, vector := [1], vectorMag := 1, hits := 0 }

/-- Second sample document (see `docA`). -/
def docB : IVSDocument :=
  { text := "b", metadata := [], timestamp := 1, vector := [1], vectorMag := 1, hits := 0 }

/-! ## Basic lemmas about the embedded operations -/

open List

/-- The LRU comparator, read back as a proposition: ascending by hits, ties
broken by ascending timestamp. -/
theorem lruLe_iff (a b : IVSDocument) :
    lruLe a b = true ↔
      (a.hits < b.hits ∨ (a.hits = b.hits ∧ a.timestamp ≤ b.timestamp)) := by
  simp only [lruLe, Bool.or_eq_true, Bool.and_eq_true, decide_eq_true_eq, beq_iff_eq]

/-- The LRU comparator is total. -/
theorem lruLe_total (a b : IVSDocument) : lruLe a b || lruLe b a := by
  simp only [Bool.or_eq_true, lruLe_iff]
  omega

/-- The LRU comparator is transitive. -/
theorem lruLe_trans (a b c : IVSDocument) :
    lruLe a b → lruLe b c → lruLe a c := by
  simp only [lruLe_iff]
  omega

/-- The score comparator is total. -/
theorem scoreLe_total (a b : IVSDocument × ℚ) : scoreLe a b || scoreLe b a := by
  simp only [scoreLe, Bool.or_eq_true, decide_eq_true_eq]
  exact le_total b.2 a.2

/-- The score comparator is transitive. -/
theorem scoreLe_trans (a b c : IVSDocument × ℚ) :
    scoreLe a b → scoreLe b c → scoreLe a c := by
  simp only [scoreLe, decide_eq_true_eq]
  intro h1 h2
  exact le_trans h2 h1

/-- The shift loop returns a sublist of its input. -/
theorem evictLoop_sublist (maxSizeInMB : ℚ) :
    ∀ l : List IVSDocument, evictLoop maxSizeInMB l <+ l := by
  intro l
  induction l with
  | nil => exact List.Sublist.refl _
  | cons d rest ih =>
    rw [evictLoop]
    by_cases h : getObjectSizeInMB (d :: rest) > maxSizeInMB
    · simpa [h] using ih.trans (List.sublist_cons_self d rest)
    · simp [h]

/-- Characterization of the shift loop: it removes exactly the shortest prefix
whose removal brings the serialized size within budget (provided the empty
set itself fits the budget, without which the JS loop would not terminate). -/
theorem evictLoop_eq_drop (maxSizeInMB : ℚ)
    (h0 : getObjectSizeInMB [] ≤ maxSizeInMB) :
    ∀ l : List IVSDocument, ∃ k,
      evictLoop maxSizeInMB l = l.drop k ∧
      getObjectSizeInMB (l.drop k) ≤ maxSizeInMB ∧
      ∀ j < k, getObjectSizeInMB (l.drop j) > maxSizeInMB := by
  intro l
  induction l with
  | nil => exact ⟨0, rfl, h0, by omega⟩
  | cons d rest ih =>
    by_cases h : getObjectSizeInMB (d :: rest) > maxSizeInMB
    · obtain ⟨k, hk1, hk2, hk3⟩ := ih
      refine ⟨k + 1, ?_, ?_, ?_⟩
      · rw [evictLoop, if_pos h, hk1, List.drop_succ_cons]
      · rwa [List.drop_succ_cons]
      · intro j hj
        match j with
        | 0 => simpa using h
        | j + 1 =>
          rw [List.drop_succ_cons]
          exact hk3 j (by omega)
    · refine ⟨0, ?_, by simpa using not_lt.mp h, by omega⟩
      rw [evictLoop, if_neg h]
      rfl

/-- Eviction never touches the training flag. -/
theorem removeDocsLRU_trainingMode (s : VectorStorage) :
    (removeDocsLRU s).trainingMode = s.trainingMode := by
  rw [removeDocsLRU]
  split <;> [rfl; split <;> rfl]

/-- Eviction never touches the configured ceiling. -/
theorem removeDocsLRU_maxSizeInMB (s : VectorStorage) :
    (removeDocsLRU s).maxSizeInMB = s.maxSizeInMB := by
  rw [removeDocsLRU]
  split <;> [rfl; split <;> rfl]

/-- Eviction never touches the backend mirror. -/
theorem removeDocsLRU_db (s : VectorStorage) : (removeDocsLRU s).db = s.db := by
  rw [removeDocsLRU]
  split <;> [rfl; split <;> rfl]

/-- In training mode the eviction pass returns the state unchanged. -/
theorem removeDocsLRU_of_trainingMode {s : VectorStorage}
    (h : s.trainingMode = true) : removeDocsLRU s = s := by
  rw [removeDocsLRU, if_pos h]

/-- Documents surviving eviction were already stored. -/
theorem mem_of_mem_removeDocsLRU {s : VectorStorage} {d : IVSDocument}
    (h : d ∈ (removeDocsLRU s).documents) : d ∈ s.documents := by
  rw [removeDocsLRU] at h
  split at h
  · exact h
  · split at h
    · have h1 := (evictLoop_sublist s.maxSizeInMB (s.documents.mergeSort lruLe)).mem h
      exact (List.mem_mergeSort).mp h1
    · exact h

/-- Any duplicate-freeness of a mapped attribute survives eviction. -/
theorem nodup_map_removeDocsLRU {α : Type} {s : VectorStorage}
    (f : IVSDocument → α) (h : (s.documents.map f).Nodup) :
    (((removeDocsLRU s).documents.map f)).Nodup := by
  rw [removeDocsLRU]
  split
  · exact h
  · split
    · have hperm : List.Perm ((s.documents.mergeSort lruLe).map f) (s.documents.map f) :=
        (List.mergeSort_perm s.documents lruLe).map f
      have hsorted : ((s.documents.mergeSort lruLe).map f).Nodup :=
        hperm.nodup_iff.mpr h
      exact List.Nodup.sublist
        ((evictLoop_sublist s.maxSizeInMB (s.documents.mergeSort lruLe)).map f) hsorted
    · exact h

/-- The save path never touches the in-memory array, the flag or the ceiling. -/
theorem saveToIndexDbStorage_documents (s : VectorStorage) :
    (saveToIndexDbStorage s).documents = s.documents ∧
    (saveToIndexDbStorage s).trainingMode = s.trainingMode ∧
    (saveToIndexDbStorage s).maxSizeInMB = s.maxSizeInMB := by
  rw [saveToIndexDbStorage]
  split <;> exact ⟨rfl, rfl, rfl⟩

/-- After a save, every backend record is either a current in-memory document
or was already in the backend. -/
theorem mem_db_saveToIndexDbStorage {s : VectorStorage} {d : IVSDocument}
    (h : d ∈ (saveToIndexDbStorage s).db) : d ∈ s.documents ∨ d ∈ s.db := by
  rw [saveToIndexDbStorage] at h
  split at h
  · exact Or.inl h
  · exact Or.inr h

/-- The shift loop always lands at or under the budget, provided the empty
set fits the budget. -/
theorem evictLoop_size_le (maxSizeInMB : ℚ)
    (h0 : getObjectSizeInMB [] ≤ maxSizeInMB) :
    ∀ l : List IVSDocument, getObjectSizeInMB (evictLoop maxSizeInMB l) ≤ maxSizeInMB := by
  intro l
  induction l with
  | nil => simpa [evictLoop] using h0
  | cons d rest ih =>
    rw [evictLoop]
    by_cases h : getObjectSizeInMB (d :: rest) > maxSizeInMB
    · simpa [h] using ih
    · simpa [h] using not_lt.mp h

/-- Outside training mode the eviction pass always lands at or under the
budget (provided the empty set fits the budget). -/
theorem removeDocsLRU_size_le {s : VectorStorage}
    (htrain : s.trainingMode = false)
    (h0 : getObjectSizeInMB [] ≤ s.maxSizeInMB) :
    getObjectSizeInMB (removeDocsLRU s).documents ≤ s.maxSizeInMB := by
  rw [removeDocsLRU, htrain]
  simp only [Bool.false_eq_true, if_false]
  by_cases h : getObjectSizeInMB s.documents > s.maxSizeInMB
  · simpa [h] using evictLoop_size_le s.maxSizeInMB h0 (s.documents.mergeSort lruLe)
  · simpa [h] using not_lt.mp h

/-- `addDocuments` never changes the training flag or the ceiling. -/
theorem addDocuments_store_flags (sqrtFn : ℚ → ℚ)
    (embedTextsFn : List String → List (List ℚ)) (s : VectorStorage)
    (documents : List IVSDocument) :
    (addDocuments sqrtFn embedTextsFn s documents).store.trainingMode = s.trainingMode ∧
    (addDocuments sqrtFn embedTextsFn s documents).store.maxSizeInMB = s.maxSizeInMB := by
  rw [addDocuments]
  split
  · exact ⟨rfl, rfl⟩
  · constructor
    · rw [(saveToIndexDbStorage_documents _).2.1, removeDocsLRU_trainingMode]
    · rw [(saveToIndexDbStorage_documents _).2.2, removeDocsLRU_maxSizeInMB]

/-- `similaritySearch` never changes the training flag or the ceiling. -/
theorem similaritySearch_store_flags (sqrtFn : ℚ → ℚ)
    (embedTextsFn : List String → List (List ℚ)) (s : VectorStorage)
    (query : String) (k : Nat) (filterOptions : Option (List Nat → Bool))
    (includeValues : Bool) :
    (similaritySearch sqrtFn embedTextsFn s query k filterOptions includeValues).store.trainingMode
        = s.trainingMode ∧
    (similaritySearch sqrtFn embedTextsFn s query k filterOptions includeValues).store.maxSizeInMB
        = s.maxSizeInMB := by
  rw [similaritySearch]
  split
  · constructor
    · rw [(saveToIndexDbStorage_documents _).2.1, removeDocsLRU_trainingMode]
    · rw [(saveToIndexDbStorage_documents _).2.2, removeDocsLRU_maxSizeInMB]
  · exact ⟨rfl, rfl⟩

/-- No public operation other than `endTrainingMode` (and `startTrainingMode`)
changes the training flag. -/
theorem applyOp_trainingMode (sqrtFn : ℚ → ℚ)
    (embedTextsFn : List String → List (List ℚ)) (s : VectorStorage) (op : Op)
    (h : op ≠ Op.endTraining) (h' : s.trainingMode = true) :
    (applyOp sqrtFn embedTextsFn s op).trainingMode = true := by
  cases op with
  | insert documents => rw [applyOp, (addDocuments_store_flags _ _ _ _).1]; exact h'
  | search query k filterOptions includeValues =>
    rw [applyOp, (similaritySearch_store_flags _ _ _ _ _ _ _).1]; exact h'
  | load => rw [applyOp, removeDocsLRU_trainingMode]; exact h'
  | startTraining => rfl
  | endTraining => exact absurd rfl h
  | deleteByMetadata documentId =>
    rw [applyOp, deleteDocumentsByMetadata, (saveToIndexDbStorage_documents _).2.1]
    exact h'

/-- Along a run that never calls `endTrainingMode`, the training flag stays
on. -/
theorem runOps_trainingMode (sqrtFn : ℚ → ℚ)
    (embedTextsFn : List String → List (List ℚ)) :
    ∀ (ops : List Op) (s : VectorStorage), (∀ op ∈ ops, op ≠ Op.endTraining) →
      s.trainingMode = true →
      (runOps sqrtFn embedTextsFn s ops).trainingMode = true := by
  intro ops
  induction ops with
  | nil => intro s _ h'; exact h'
  | cons op rest ih =>
    intro s h h'
    rw [runOps, List.foldl_cons]
    exact ih _ (fun o ho => h o (List.mem_cons_of_mem _ ho))
      (applyOp_trainingMode _ _ _ _ (h op (List.mem_cons_self _ _)) h')

/-- Unpacking the candidate filter of `addDocuments`. -/
theorem isNewDocument_iff (inMemory : List IVSDocument) (existingTexts : List String)
    (doc : IVSDocument) :
    isNewDocument inMemory existingTexts doc = true ↔
      (jsTrim doc.text ≠ "" ∧ (∀ d ∈ inMemory, d.text ≠ doc.text) ∧
        doc.text ∉ existingTexts) := by
  simp [isNewDocument, List.any_eq_true, and_assoc]

/-! ## Claims -/

/-- Claim C9: for every `addTexts(texts, metadatas)` call with
`texts.length != metadatas.length`, the operation fails with the
length-mismatch validation error; the error is thrown before `addDocuments`
runs, so no document is inserted and the in-memory set is untouched. -/
theorem addTexts_length_mismatch (sqrtFn : ℚ → ℚ)
    (embedTextsFn : List String → List (List ℚ)) (s : VectorStorage)
    (texts : List String) (metadatas : List (List Nat)) (now : Int)
    (h : texts.length ≠ metadatas.length) :
    addTexts sqrtFn embedTextsFn s texts metadatas now
      = .error "The lengths of texts and metadata arrays must match." := by
  rw [addTexts, if_pos h]

/-- Witness for the C9 theorem, at `addTexts(["a","b"], [m1])`. -/
theorem addTexts_length_mismatch_witness :
    (["a", "b"] : List String).length ≠ ([[1]] : List (List Nat)).length ∧
    addTexts (fun q => q) (fun ts => ts.map fun _ => ([1] : List ℚ))
        { documents := [], db := [], maxSizeInMB := 100, trainingMode := true }
        ["a", "b"] [[1]] 0
      = .error "The lengths of texts and metadata arrays must match." :=
  ⟨by decide, addTexts_length_mismatch _ _ _ _ _ _ (by decide)⟩

/-- Claim C4: when every candidate of an insert batch is dropped — blank or
whitespace-only text, text already in the in-memory set, or text already in
the backend — `addDocuments` returns an empty sequence, makes zero calls to
the embedding provider, performs no persist, and leaves the store unchanged;
in particular re-inserting an already-present text inserts nothing and
triggers no provider call. -/
theorem addDocuments_all_dropped (sqrtFn : ℚ → ℚ)
    (embedTextsFn : List String → List (List ℚ)) (s : VectorStorage)
    (documents : List IVSDocument)
    (h : ∀ doc ∈ documents, jsTrim doc.text = "" ∨
        (∃ d ∈ s.documents, d.text = doc.text) ∨ doc.text ∈ s.db.map (·.text)) :
    addDocuments sqrtFn embedTextsFn s documents
      = { store := s, returned := [], embedCalls := 0, persisted := false } := by
  have hfilter :
      documents.filter (isNewDocument s.documents (s.db.map (·.text))) = [] := by
    rw [List.filter_eq_nil_iff]
    intro doc hdoc
    rw [isNewDocument_iff]
    push_neg
    intro hne hall
    rcases h doc hdoc with h1 | ⟨d, hd, he⟩ | h3
    · exact absurd h1 hne
    · exact absurd he (hall d hd)
    · exact h3
  rw [addDocuments]
  simp only [hfilter, List.isEmpty_nil, if_pos]

/-- Witness for the C4 theorem: a batch made of a whitespace-only text, a text
already in memory, and a text already in the backend inserts nothing. -/
theorem addDocuments_all_dropped_witness :
    (∀ doc ∈ [mkDoc "  " [] 5, mkDoc "here" [] 6, mkDoc "backend" [] 7],
      jsTrim doc.text = "" ∨
        (∃ d ∈ [mkDoc "here" [] 0], d.text = doc.text) ∨
        doc.text ∈ ([mkDoc "backend" [] 1].map (·.text))) ∧
    addDocuments (fun q => q) (fun ts => ts.map fun _ => ([1] : List ℚ))
        { documents := [mkDoc "here" [] 0], db := [mkDoc "backend" [] 1],
          maxSizeInMB := 100, trainingMode := true }
        [mkDoc "  " [] 5, mkDoc "here" [] 6, mkDoc "backend" [] 7]
      = { store :=
                  { documents := [mkDoc "here" [] 0], db := [mkDoc "backend" [] 1],
                    maxSizeInMB := 100, trainingMode := true },
          returned := [], embedCalls := 0, persisted := false } :=
  ⟨by decide, addDocuments_all_dropped _ _ _ _ (by decide)⟩

unseal List.merge List.mergeSort

/-- Claim C1 (refuted — code bug): the spec requires `similaritySearch` to
increment the `hits` counter of each returned in-memory document on the
stored document itself.  The code instead builds spread copies
`{ ...pair[0], score: pair[1] }` and hands those to `updateHitCounters`, so
the increment lands on the returned copies while every stored document keeps
its previous counter: searching a one-document store returns the document
with `hits = 1` while the stored document still has `hits = 0`. -/
theorem similaritySearch_increments_copies_not_store :
    (let out := similaritySearch (fun q => q) (fun ts => ts.map fun _ => ([1] : List ℚ))
        { documents := [{ text := "hello", metadata := [], timestamp := 0,
                          vector := [1], vectorMag := 1, hits := 0 }],
          db := [{ text := "hello", metadata := [], timestamp := 0,
                   vector := [1], vectorMag := 1, hits := 0 }],
          maxSizeInMB := 100, trainingMode := true }
        "hi" 4 none true
     (out.similarItems.map (·.hits) = [1]) ∧
       out.store.documents.map (·.hits) = [0] ∧
       out.store.db.map (·.hits) = [0]) := by
  decide

/-- The shift loop always returns a suffix of its input. -/
theorem evictLoop_eq_drop_of_any (maxSizeInMB : ℚ) :
    ∀ l : List IVSDocument, ∃ k, evictLoop maxSizeInMB l = l.drop k := by
  intro l
  induction l with
  | nil => exact ⟨0, rfl⟩
  | cons d rest ih =>
    by_cases h : getObjectSizeInMB (d :: rest) > maxSizeInMB
    · obtain ⟨k, hk⟩ := ih
      exact ⟨k + 1, by rw [evictLoop, if_pos h, hk, List.drop_succ_cons]⟩
    · refine ⟨0, ?_⟩
      rw [evictLoop, if_neg h]
      rfl

/-- Outside training mode, eviction either leaves the array alone or keeps a
suffix of its stable ascending `(hits, timestamp)` ordering. -/
theorem removeDocsLRU_structure {s : VectorStorage}
    (htrain : s.trainingMode = false) :
    (removeDocsLRU s).documents = s.documents ∨
    ∃ k, (removeDocsLRU s).documents = (s.documents.mergeSort lruLe).drop k := by
  rw [removeDocsLRU, htrain]
  simp only [Bool.false_eq_true, if_false]
  by_cases h : getObjectSizeInMB s.documents > s.maxSizeInMB
  · rw [if_pos h]
    exact Or.inr (evictLoop_eq_drop_of_any s.maxSizeInMB _)
  · rw [if_neg h]
    exact Or.inl rfl

/-- Claim C2 (refuted as stated): on a freshly constructed store the training
flag is on, so `addDocuments` never evicts and the serialized size can end up
strictly over the configured ceiling. -/
theorem addDocuments_over_ceiling_counterexample :
    getObjectSizeInMB
        (addDocuments (fun q => q) (fun ts => ts.map fun _ => ([1, 2, 3] : List ℚ))
          (initStore [] (1 / 1048576)) [mkDoc "a" [] 0]).store.documents
      > (addDocuments (fun q => q) (fun ts => ts.map fun _ => ([1, 2, 3] : List ℚ))
          (initStore [] (1 / 1048576)) [mkDoc "a" [] 0]).store.maxSizeInMB ∧
    (addDocuments (fun q => q) (fun ts => ts.map fun _ => ([1, 2, 3] : List ℚ))
        (initStore [] (1 / 1048576)) [mkDoc "a" [] 0]).returned.length = 1 := by
  refine ⟨?_, by decide⟩
  have hbytes : encodedBytes
      (addDocuments (fun q => q) (fun ts => ts.map fun _ => ([1, 2, 3] : List ℚ))
        (initStore [] (1 / 1048576)) [mkDoc "a" [] 0]).store.documents = 67 := by
    decide
  have hmax : (addDocuments (fun q => q) (fun ts => ts.map fun _ => ([1, 2, 3] : List ℚ))
      (initStore [] (1 / 1048576)) [mkDoc "a" [] 0]).store.maxSizeInMB
      = 1 / 1048576 := rfl
  rw [getObjectSizeInMB, hbytes, hmax]
  norm_num

/-- Claim C2 (amended): provided `endTrainingMode()` has been called (the
training flag is off), the ceiling admits the empty set, and the store was
within the ceiling before the call, after `addDocuments` the serialized size
of the in-memory set is at or under the ceiling; moreover the surviving set
is either the old set followed by the inserted batch (nothing evicted) or a
suffix of the stable ascending `(hits, timestamp)` ordering of it (only the
lowest-priority documents were removed). -/
theorem addDocuments_size_bounded (sqrtFn : ℚ → ℚ)
    (embedTextsFn : List String → List (List ℚ)) (s : VectorStorage)
    (documents : List IVSDocument)
    (htrain : s.trainingMode = false)
    (h0 : getObjectSizeInMB [] ≤ s.maxSizeInMB)
    (hpre : getObjectSizeInMB s.documents ≤ s.maxSizeInMB) :
    (let out := addDocuments sqrtFn embedTextsFn s documents
     getObjectSizeInMB out.store.documents ≤ s.maxSizeInMB ∧
       (out.store.documents = s.documents ++ out.returned ∨
         ∃ k, out.store.documents
           = ((s.documents ++ out.returned).mergeSort lruLe).drop k)) := by
  simp only [addDocuments]
  by_cases hemp :
      (documents.filter (isNewDocument s.documents (s.db.map (·.text)))).isEmpty = true
  · simp only [hemp, if_true]
    exact ⟨hpre, Or.inl (by simp)⟩
  · simp only [hemp, Bool.false_eq_true, if_false]
    constructor
    · rw [(saveToIndexDbStorage_documents _).1]
      exact removeDocsLRU_size_le htrain h0
    · rw [(saveToIndexDbStorage_documents _).1]
      exact removeDocsLRU_structure htrain

/-- Claim C3: on every freshly constructed store the training/bulk-load flag
is active, and it stays active under every public operation other than an
explicit `endTrainingMode()`; while it is active the eviction pass is the
identity, so no insert, search or (initial) load ever evicts a document:
the constructor hydrates the full backend, inserts only append, and searches
leave the in-memory array untouched. -/
theorem trainingMode_active_from_construction (sqrtFn : ℚ → ℚ)
    (embedTextsFn : List String → List (List ℚ)) (db : List IVSDocument)
    (maxSizeInMB : ℚ) (ops : List Op)
    (h : ∀ op ∈ ops, op ≠ Op.endTraining) :
    ((initStore db maxSizeInMB).documents = db) ∧
    (∀ pre suf, ops = pre ++ suf →
      (runOps sqrtFn embedTextsFn (initStore db maxSizeInMB) pre).trainingMode = true) ∧
    (∀ s : VectorStorage, s.trainingMode = true →
      removeDocsLRU s = s ∧
      (∀ documents, (addDocuments sqrtFn embedTextsFn s documents).store.documents
          = s.documents ++ (addDocuments sqrtFn embedTextsFn s documents).returned) ∧
      (∀ query k filterOptions includeValues,
        (similaritySearch sqrtFn embedTextsFn s query k filterOptions
            includeValues).store.documents = s.documents) ∧
      (applyOp sqrtFn embedTextsFn s Op.load).documents = s.db) := by
  refine ⟨?_, ?_, ?_⟩
  · rw [initStore, removeDocsLRU_of_trainingMode rfl]
  · intro pre suf hsplit
    refine runOps_trainingMode _ _ pre _ ?_ ?_
    · intro op hop
      exact h op (hsplit ▸ List.mem_append_left suf hop)
    · rw [initStore, removeDocsLRU_of_trainingMode rfl]
  · intro s hs
    refine ⟨removeDocsLRU_of_trainingMode hs, ?_, ?_, ?_⟩
    · intro documents
      rw [addDocuments]
      by_cases hemp :
          (documents.filter (isNewDocument s.documents (s.db.map (·.text)))).isEmpty = true
      · simp [hemp]
      · simp only [hemp, Bool.false_eq_true, if_false]
        rw [(saveToIndexDbStorage_documents _).1]
        simp [removeDocsLRU, hs]
    · intro query k filterOptions includeValues
      rw [similaritySearch]
      dsimp only
      split
      · rw [(saveToIndexDbStorage_documents _).1, removeDocsLRU_of_trainingMode hs]
      · rfl
    · rw [applyOp]
      simp [removeDocsLRU, hs]

/-- Witness for the C3 theorem: a one-operation run (a load) on a fresh store
keeps the training flag on and hydrates every backend record. -/
theorem trainingMode_active_from_construction_witness :
    (∀ op ∈ ([Op.load] : List Op), op ≠ Op.endTraining) ∧
    (initStore ([mkDoc "a" [] 0]) 100).documents = [mkDoc "a" [] 0] :=
  ⟨by simp, (trainingMode_active_from_construction (fun q => q)
    (fun ts => ts.map fun _ => ([1] : List ℚ)) [mkDoc "a" [] 0] 100 [Op.load]
    (by simp)).1⟩

/-- Witness for the amended C2 theorem: inserting one document into an empty
store with training mode off and ceiling 100MB stays within the ceiling. -/
theorem addDocuments_size_bounded_witness :
    (({ documents := [], db := [], maxSizeInMB := 100,
        trainingMode := false } : VectorStorage).trainingMode = false) ∧
    getObjectSizeInMB ([] : List IVSDocument) ≤ (100 : ℚ) ∧
    (let out := addDocuments (fun q => q) embedConst1
        { documents := [], db := [], maxSizeInMB := 100, trainingMode := false }
        [mkDoc "a" [] 0]
     getObjectSizeInMB out.store.documents ≤ (100 : ℚ) ∧
       (out.store.documents = [] ++ out.returned ∨
         ∃ k, out.store.documents = (([] ++ out.returned).mergeSort lruLe).drop k)) :=
  ⟨rfl, by norm_num [getObjectSizeInMB, encodedBytes],
    addDocuments_size_bounded (fun q => q) embedConst1
      { documents := [], db := [], maxSizeInMB := 100, trainingMode := false }
      [mkDoc "a" [] 0] rfl
      (by norm_num [getObjectSizeInMB, encodedBytes])
      (by norm_num [getObjectSizeInMB, encodedBytes])⟩

/-- Claim C7 (refuted as stated): with the training flag on — as it is from
construction — the eviction pass removes nothing even when the serialized
size is strictly over the ceiling. -/
theorem removeDocsLRU_training_counterexample :
    removeDocsLRU { documents := [mkDoc "a" [] 0], db := [],
                    maxSizeInMB := 1 / 1048576, trainingMode := true }
      = { documents := [mkDoc "a" [] 0], db := [],
          maxSizeInMB := 1 / 1048576, trainingMode := true } ∧
    getObjectSizeInMB [mkDoc "a" [] 0] > (1 / 1048576 : ℚ) := by
  refine ⟨removeDocsLRU_of_trainingMode rfl, ?_⟩
  have h1 : encodedBytes [mkDoc "a" [] 0] = 43 := by decide
  rw [getObjectSizeInMB, h1]
  norm_num

/-- Claim C7 (amended): the eviction pass never removes any document while
the serialized size is at or under the ceiling; when over the ceiling and the
training flag is off, it sorts the set ascending by `(hits, timestamp)` with
a stable tie-break (JS sort is stable: candidates with equal hits and equal
timestamp keep their pre-sort relative order) and removes exactly the
shortest front segment of that ordering that brings the size at or under the
ceiling — never more documents than necessary. -/
theorem removeDocsLRU_lru_eviction (s : VectorStorage)
    (h0 : getObjectSizeInMB [] ≤ s.maxSizeInMB) :
    (getObjectSizeInMB s.documents ≤ s.maxSizeInMB → removeDocsLRU s = s) ∧
    (s.trainingMode = false → getObjectSizeInMB s.documents > s.maxSizeInMB →
      ∃ k, (removeDocsLRU s).documents = (s.documents.mergeSort lruLe).drop k ∧
        getObjectSizeInMB ((s.documents.mergeSort lruLe).drop k) ≤ s.maxSizeInMB ∧
        ∀ j < k, getObjectSizeInMB ((s.documents.mergeSort lruLe).drop j)
          > s.maxSizeInMB) ∧
    (s.documents.mergeSort lruLe).Pairwise (fun a b =>
      a.hits < b.hits ∨ (a.hits = b.hits ∧ a.timestamp ≤ b.timestamp)) ∧
    (∀ a b, a.hits = b.hits → a.timestamp = b.timestamp →
      [a, b] <+ s.documents → [a, b] <+ s.documents.mergeSort lruLe) := by
  refine ⟨?_, ?_, ?_, ?_⟩
  · intro hle
    rw [removeDocsLRU]
    split
    · rfl
    · rw [if_neg (not_lt.mpr hle)]
  · intro htrain hover
    rw [removeDocsLRU, htrain]
    simp only [Bool.false_eq_true, if_false, if_pos hover]
    exact evictLoop_eq_drop s.maxSizeInMB h0 (s.documents.mergeSort lruLe)
  · have hsorted := @List.sorted_mergeSort IVSDocument lruLe
      lruLe_trans lruLe_total s.documents
    exact hsorted.imp (fun hab => (lruLe_iff _ _).mp hab)
  · intro a b hh ht hsub
    exact List.pair_sublist_mergeSort lruLe_trans lruLe_total
      ((lruLe_iff a b).mpr (Or.inr ⟨hh, le_of_eq ht⟩)) hsub

/-- Witness for the amended C7 theorem: a within-budget store is left
untouched by the eviction pass. -/
theorem removeDocsLRU_lru_eviction_witness :
    getObjectSizeInMB ([] : List IVSDocument) ≤ (100 : ℚ) ∧
    removeDocsLRU { documents := [docA], db := [], maxSizeInMB := 100,
                    trainingMode := false }
      = { documents := [docA], db := [], maxSizeInMB := 100,
          trainingMode := false } :=
  ⟨by norm_num [getObjectSizeInMB, encodedBytes],
    (removeDocsLRU_lru_eviction
      { documents := [docA], db := [], maxSizeInMB := 100, trainingMode := false }
      (by norm_num [getObjectSizeInMB, encodedBytes])).1
      (by
        have h1 : encodedBytes [docA] = 51 := by decide
        rw [getObjectSizeInMB, h1]
        norm_num)⟩

/-- The reduce loop of the dot product, written as a truncated pointwise sum:
the loop walks `doc.vector`, so when it is no longer than the query the
result is the sum of pairwise products. -/
theorem dotAux_eq_zipWith (q : List ℚ) :
    ∀ (v : List ℚ) (i : Nat) (acc : ℚ), i + v.length ≤ q.length →
      dotAux q i v acc = acc + (List.zipWith (· * ·) v (q.drop i)).sum := by
  intro v
  induction v with
  | nil => intro i acc _; simp [dotAux]
  | cons x xs ih =>
    intro i acc h
    have hi : i < q.length := by
      simp only [List.length_cons] at h
      omega
    have hrec := ih (i + 1) (acc + x * q.getD i 0) (by
      simp only [List.length_cons] at h
      omega)
    rw [dotAux, hrec, List.drop_eq_getElem_cons hi, List.zipWith_cons_cons,
      List.sum_cons, List.getD_eq_getElem q 0 hi]
    ring

/-- The dot product as computed by the code equals the pointwise-product sum
whenever the document vector is no longer than the query vector. -/
theorem dotProduct_eq_zipWith (v q : List ℚ) (h : v.length ≤ q.length) :
    dotProduct v q = (List.zipWith (· * ·) v q).sum := by
  have := dotAux_eq_zipWith q v 0 0 (by omega)
  simpa [dotProduct] using this

/-- Claim C6 (refuted as stated): the scoring step performs no length check
and raises no error on mismatched vectors — here a document vector of length
1 is scored against a query vector of length 2, producing the score 4/5. -/
theorem calculateSimilarityScores_mismatch_counterexample :
    (({ text := "t", metadata := [], timestamp := 0, vector := [2],
        vectorMag := 2, hits := 0 } : IVSDocument).vector.length
      ≠ ([3, 4] : List ℚ).length) ∧
    calculateSimilarityScores
        [{ text := "t", metadata := [], timestamp := 0, vector := [2],
           vectorMag := 2, hits := 0 }] [3, 4] 5
      = [({ text := "t", metadata := [], timestamp := 0, vector := [2],
            vectorMag := 2, hits := 0 }, 4 / 5)] := by
  refine ⟨by decide, ?_⟩
  simp only [calculateSimilarityScores, List.map_cons, List.map_nil,
    dotProduct, dotAux, getCosineSimilarityScore, normalizeScore]
  norm_num

/-- Claim C6 (amended): for every document and query vector of unequal
lengths, the scoring step does not fail fast: every document receives a
score, computed as the dot product over the document vector's indices — a
silent truncation when the document vector is shorter than the query —
followed by `normalize(cosine(dot, doc.vectorMag, queryMagnitude))`. -/
theorem calculateSimilarityScores_no_length_check
    (filteredDocuments : List IVSDocument) (queryVector : List ℚ)
    (queryMagnitude : ℚ)
    (h : ∀ d ∈ filteredDocuments, d.vector.length ≤ queryVector.length) :
    calculateSimilarityScores filteredDocuments queryVector queryMagnitude
      = filteredDocuments.map (fun d =>
          (d, normalizeScore (getCosineSimilarityScore
            ((List.zipWith (· * ·) d.vector queryVector).sum)
            d.vectorMag queryMagnitude))) := by
  unfold calculateSimilarityScores
  apply List.map_congr_left
  intro d hd
  rw [dotProduct_eq_zipWith d.vector queryVector (h d hd)]

/-- Witness for the amended C6 theorem, at a one-document list whose vector
is strictly shorter than the query. -/
theorem calculateSimilarityScores_no_length_check_witness :
    (∀ d ∈ [docA], d.vector.length ≤ ([3, 4] : List ℚ).length) ∧
    calculateSimilarityScores [docA] [3, 4] 5
      = [docA].map (fun d =>
          (d, normalizeScore (getCosineSimilarityScore
            ((List.zipWith (· * ·) d.vector [3, 4]).sum) d.vectorMag 5))) :=
  ⟨by decide, calculateSimilarityScores_no_length_check [docA] [3, 4] 5 (by decide)⟩

/-- Claim C8: for every `similaritySearch` call the returned items are sorted
in descending order of score; the returned scores are exactly the top-`k`
prefix of the stable descending ranking of all scored pairs; and any two
scored pairs with identical scores keep their pre-sort relative order in that
ranking (JS sort stability, modelled by the stable merge sort). -/
theorem similaritySearch_sorted_stable (sqrtFn : ℚ → ℚ)
    (embedTextsFn : List String → List (List ℚ)) (s : VectorStorage)
    (query : String) (k : Nat) (filterOptions : Option (List Nat → Bool))
    (includeValues : Bool) :
    ((similaritySearch sqrtFn embedTextsFn s query k filterOptions
        includeValues).similarItems.map (·.score)).Pairwise (· ≥ ·) ∧
    (similaritySearch sqrtFn embedTextsFn s query k filterOptions
        includeValues).similarItems.map (·.score)
      = (((searchScorePairs sqrtFn s ((embedTextsFn [query]).getD 0 [])
          filterOptions).mergeSort scoreLe).take k).map (·.2) ∧
    ∀ p p' : IVSDocument × ℚ,
      [p, p'] <+ searchScorePairs sqrtFn s ((embedTextsFn [query]).getD 0 [])
        filterOptions →
      p.2 = p'.2 →
      [p, p'] <+ (searchScorePairs sqrtFn s ((embedTextsFn [query]).getD 0 [])
        filterOptions).mergeSort scoreLe := by
  have h2 : (similaritySearch sqrtFn embedTextsFn s query k filterOptions
      includeValues).similarItems.map (·.score)
      = (((searchScorePairs sqrtFn s ((embedTextsFn [query]).getD 0 [])
          filterOptions).mergeSort scoreLe).take k).map (·.2) := by
    simp only [similaritySearch, updateHitCounters, stripValues, List.map_map,
      Function.comp]
    rw [List.map_take, List.map_take]
    congr 1
  refine ⟨?_, h2, ?_⟩
  · rw [h2]
    have hsorted : ((searchScorePairs sqrtFn s ((embedTextsFn [query]).getD 0 [])
        filterOptions).mergeSort scoreLe).Pairwise (fun x y => scoreLe x y) :=
      @List.sorted_mergeSort (IVSDocument × ℚ) scoreLe scoreLe_trans scoreLe_total _
    have htake := hsorted.sublist (List.take_sublist k _)
    rw [List.pairwise_map]
    refine htake.imp ?_
    intro x y hxy
    simpa [scoreLe, ge_iff_le, decide_eq_true_eq] using hxy
  · intro p p' hsub heq
    refine List.pair_sublist_mergeSort scoreLe_trans scoreLe_total ?_ hsub
    simp only [scoreLe, decide_eq_true_eq]
    exact le_of_eq heq.symm

/-- Assigning vectors and magnitudes inside `addDocuments` leaves every
candidate's text unchanged. -/
theorem assign_map_text (sqrtFn : ℚ → ℚ) (nv : List (List ℚ))
    (nd : List IVSDocument) :
    ((nd.enum.map (fun p =>
        { p.2 with vector := nv.getD p.1 [],
                   vectorMag := sqrtFn (sumOfSquares (nv.getD p.1 [])) })).map (·.text))
      = nd.map (·.text) := by
  rw [List.map_map]
  rw [show ((fun d : IVSDocument => d.text) ∘ (fun p : Nat × IVSDocument =>
      { p.2 with vector := nv.getD p.1 [],
                 vectorMag := sqrtFn (sumOfSquares (nv.getD p.1 [])) }))
    = (fun d : IVSDocument => d.text) ∘ Prod.snd from rfl]
  rw [← List.map_map, List.enum_map_snd]

/-- The save path preserves the text invariants. -/
theorem textsInvariant_save (s : VectorStorage) (h : textsInvariant s) :
    textsInvariant (saveToIndexDbStorage s) := by
  obtain ⟨h1, h2, h3, h4⟩ := h
  rw [saveToIndexDbStorage]
  by_cases hc : (s.documents.map (·.text)).Nodup
  · rw [if_pos hc]
    exact ⟨h1, h1, h3, h3⟩
  · rw [if_neg hc]
    exact ⟨h1, h2, h3, h4⟩

/-- The eviction pass preserves the text invariants. -/
theorem textsInvariant_removeDocsLRU (s : VectorStorage)
    (h : textsInvariant s) : textsInvariant (removeDocsLRU s) := by
  obtain ⟨h1, h2, h3, h4⟩ := h
  refine ⟨nodup_map_removeDocsLRU _ h1, ?_, ?_, ?_⟩
  · rw [removeDocsLRU_db]; exact h2
  · intro d hd; exact h3 d (mem_of_mem_removeDocsLRU hd)
  · intro d hd; rw [removeDocsLRU_db] at hd; exact h4 d hd

/-- `addDocuments` preserves the text invariants, provided the batch does not
repeat a text. -/
theorem addDocuments_textsInvariant (sqrtFn : ℚ → ℚ)
    (embedTextsFn : List String → List (List ℚ)) (s : VectorStorage)
    (documents : List IVSDocument) (hinv : textsInvariant s)
    (hbatch : (documents.map (·.text)).Nodup) :
    textsInvariant (addDocuments sqrtFn embedTextsFn s documents).store := by
  obtain ⟨hmN, hdN, hmB, hdB⟩ := hinv
  rw [addDocuments]
  by_cases hemp :
      (documents.filter (isNewDocument s.documents (s.db.map (·.text)))).isEmpty = true
  · simp only [hemp, if_true]
    exact ⟨hmN, hdN, hmB, hdB⟩
  · simp only [hemp, Bool.false_eq_true, if_false]
    apply textsInvariant_save
    apply textsInvariant_removeDocsLRU
    refine ⟨?_, hdN, ?_, hdB⟩
    · show ((s.documents ++ _).map (·.text)).Nodup
      rw [List.map_append, assign_map_text]
      refine List.nodup_append.mpr ⟨hmN, ?_, ?_⟩
      · exact List.Nodup.sublist ((List.filter_sublist _).map _) hbatch
      · intro t ht ht'
        obtain ⟨m, hm, hmt⟩ := List.mem_map.mp ht
        obtain ⟨d', hd', hdt⟩ := List.mem_map.mp ht'
        have hnew := (isNewDocument_iff _ _ _).mp (List.of_mem_filter hd')
        exact hnew.2.1 m hm (by rw [hmt, hdt])
    · intro d hd
      rcases List.mem_append.mp hd with hold | hnewm
      · exact hmB d hold
      · have : d.text ∈ _ := List.mem_map_of_mem (·.text) hnewm
        rw [assign_map_text] at this
        obtain ⟨d', hd', hdt⟩ := List.mem_map.mp this
        have hnew := (isNewDocument_iff _ _ _).mp (List.of_mem_filter hd')
        rw [← hdt]
        exact hnew.1

/-- Every public operation preserves the text invariants (inserts under the
distinct-texts batch condition). -/
theorem applyOp_textsInvariant (sqrtFn : ℚ → ℚ)
    (embedTextsFn : List String → List (List ℚ)) (s : VectorStorage) (op : Op)
    (hinv : textsInvariant s) (hop : insertBatchTextsNodup op) :
    textsInvariant (applyOp sqrtFn embedTextsFn s op) := by
  cases op with
  | insert documents =>
    exact addDocuments_textsInvariant sqrtFn embedTextsFn s documents hinv hop
  | search query k filterOptions includeValues =>
    rw [applyOp, similaritySearch]
    dsimp only
    split
    · exact textsInvariant_save _ (textsInvariant_removeDocsLRU _ hinv)
    · exact hinv
  | load =>
    rw [applyOp]
    apply textsInvariant_removeDocsLRU
    obtain ⟨h1, h2, h3, h4⟩ := hinv
    exact ⟨h2, h2, h4, h4⟩
  | startTraining => exact hinv
  | endTraining => exact hinv
  | deleteByMetadata documentId =>
    rw [applyOp, deleteDocumentsByMetadata]
    apply textsInvariant_save
    obtain ⟨h1, h2, h3, h4⟩ := hinv
    refine ⟨?_, h2, ?_, h4⟩
    · exact List.Nodup.sublist ((List.filter_sublist _).map _) h1
    · intro d hd
      exact h3 d (List.mem_of_mem_filter hd)

/-- The text invariants hold along any run whose insert batches do not repeat
texts. -/
theorem runOps_textsInvariant (sqrtFn : ℚ → ℚ)
    (embedTextsFn : List String → List (List ℚ)) :
    ∀ (ops : List Op) (s : VectorStorage), textsInvariant s →
      (∀ op ∈ ops, insertBatchTextsNodup op) →
      textsInvariant (runOps sqrtFn embedTextsFn s ops) := by
  intro ops
  induction ops with
  | nil => intro s h _; exact h
  | cons op rest ih =>
    intro s h hops
    rw [runOps, List.foldl_cons]
    exact ih _ (applyOp_textsInvariant _ _ _ _ h (hops op (List.mem_cons_self _ _)))
      (fun o ho => hops o (List.mem_cons_of_mem _ ho))

/-- Claim C5 (refuted as stated): the candidate filter checks each batch
element only against the pre-batch state, so a single insert batch repeating
the same new text inserts it twice and breaks text uniqueness of the
in-memory set. -/
theorem addDocuments_duplicate_batch_counterexample :
    ¬ (((addDocuments (fun q => q) embedConst1
        { documents := [], db := [], maxSizeInMB := 100, trainingMode := true }
        [mkDoc "a" [] 0, mkDoc "a" [] 1]).store.documents.map (·.text)).Nodup) := by
  decide

/-- Claim C5 (amended): after every operation, text stays unique
(case-sensitive, exact match) across the live in-memory set and no document
with empty or whitespace-only text is ever inserted — provided the backend
the store was constructed from satisfies the same invariants and every insert
batch contains pairwise-distinct texts (a batch repeating a new text violates
uniqueness, see the counterexample). -/
theorem unique_nonblank_texts (sqrtFn : ℚ → ℚ)
    (embedTextsFn : List String → List (List ℚ)) (db : List IVSDocument)
    (maxSizeInMB : ℚ) (ops : List Op)
    (hdbN : (db.map (·.text)).Nodup)
    (hdbB : ∀ d ∈ db, jsTrim d.text ≠ "")
    (hops : ∀ op ∈ ops, insertBatchTextsNodup op) :
    ((runOps sqrtFn embedTextsFn (initStore db maxSizeInMB)
        ops).documents.map (·.text)).Nodup ∧
    ∀ d ∈ (runOps sqrtFn embedTextsFn (initStore db maxSizeInMB) ops).documents,
      jsTrim d.text ≠ "" := by
  have hinit : textsInvariant (initStore db maxSizeInMB) := by
    rw [initStore]
    exact textsInvariant_removeDocsLRU _ ⟨hdbN, hdbN, hdbB, hdbB⟩
  have h := runOps_textsInvariant sqrtFn embedTextsFn ops _ hinit hops
  exact ⟨h.1, h.2.2.1⟩

/-- Witness for the amended C5 theorem: inserting two distinct texts into a
fresh empty store keeps texts unique. -/
theorem unique_nonblank_texts_witness :
    (∀ op ∈ ([Op.insert [mkDoc "a" [] 0, mkDoc "b" [] 1]] : List Op),
      insertBatchTextsNodup op) ∧
    ((runOps (fun q => q) embedConst1 (initStore [] 100)
        [Op.insert [mkDoc "a" [] 0, mkDoc "b" [] 1]]).documents.map (·.text)).Nodup :=
  ⟨by
    intro op hop
    rw [List.mem_singleton] at hop
    subst hop
    show ([mkDoc "a" [] 0, mkDoc "b" [] 1].map (·.text)).Nodup
    decide,
   (unique_nonblank_texts (fun q => q) embedConst1 [] 100
      [Op.insert [mkDoc "a" [] 0, mkDoc "b" [] 1]]
      (by decide) (by simp)
      (by
        intro op hop
        rw [List.mem_singleton] at hop
        subst hop
        show ([mkDoc "a" [] 0, mkDoc "b" [] 1].map (·.text)).Nodup
        decide)).1⟩

/-- The magnitude invariant is preserved by the save path. -/
theorem magConsistent_save (sqrtFn : ℚ → ℚ) (s : VectorStorage)
    (h1 : ∀ d ∈ s.documents, magConsistent sqrtFn d)
    (h2 : ∀ d ∈ s.db, magConsistent sqrtFn d) :
    (∀ d ∈ (saveToIndexDbStorage s).documents, magConsistent sqrtFn d) ∧
    (∀ d ∈ (saveToIndexDbStorage s).db, magConsistent sqrtFn d) := by
  constructor
  · rw [(saveToIndexDbStorage_documents s).1]
    exact h1
  · intro d hd
    rcases mem_db_saveToIndexDbStorage hd with h | h
    · exact h1 d h
    · exact h2 d h

/-- The magnitude invariant is preserved by the eviction pass. -/
theorem magConsistent_removeDocsLRU (sqrtFn : ℚ → ℚ) (s : VectorStorage)
    (h1 : ∀ d ∈ s.documents, magConsistent sqrtFn d)
    (h2 : ∀ d ∈ s.db, magConsistent sqrtFn d) :
    (∀ d ∈ (removeDocsLRU s).documents, magConsistent sqrtFn d) ∧
    (∀ d ∈ (removeDocsLRU s).db, magConsistent sqrtFn d) := by
  constructor
  · intro d hd
    exact h1 d (mem_of_mem_removeDocsLRU hd)
  · rw [removeDocsLRU_db]
    exact h2

/-- Every document handed back by `addDocuments` carries the magnitude of its
freshly assigned vector: the field is written together with the vector. -/
theorem addDocuments_returned_magConsistent (sqrtFn : ℚ → ℚ)
    (embedTextsFn : List String → List (List ℚ)) (s : VectorStorage)
    (documents : List IVSDocument) :
    ∀ d ∈ (addDocuments sqrtFn embedTextsFn s documents).returned,
      magConsistent sqrtFn d := by
  rw [addDocuments]
  by_cases hemp :
      (documents.filter (isNewDocument s.documents (s.db.map (·.text)))).isEmpty = true
  · simp [hemp]
  · simp only [hemp, Bool.false_eq_true, if_false]
    intro d hd
    obtain ⟨p, _, hp⟩ := List.mem_map.mp hd
    rw [← hp]
    rfl

/-- `applyOp` preserves the magnitude invariant on memory and backend. -/
theorem applyOp_magConsistent (sqrtFn : ℚ → ℚ)
    (embedTextsFn : List String → List (List ℚ)) (s : VectorStorage) (op : Op)
    (h1 : ∀ d ∈ s.documents, magConsistent sqrtFn d)
    (h2 : ∀ d ∈ s.db, magConsistent sqrtFn d) :
    (∀ d ∈ (applyOp sqrtFn embedTextsFn s op).documents, magConsistent sqrtFn d) ∧
    (∀ d ∈ (applyOp sqrtFn embedTextsFn s op).db, magConsistent sqrtFn d) := by
  cases op with
  | insert documents =>
    have hret := addDocuments_returned_magConsistent sqrtFn embedTextsFn s documents
    rw [applyOp, addDocuments]
    rw [addDocuments] at hret
    by_cases hemp :
        (documents.filter (isNewDocument s.documents (s.db.map (·.text)))).isEmpty = true
    · simp only [hemp, if_true]
      exact ⟨h1, h2⟩
    · simp only [hemp, Bool.false_eq_true, if_false] at hret ⊢
      apply magConsistent_save
      · refine (magConsistent_removeDocsLRU sqrtFn _ ?_ ?_).1
        · intro d hd
          rcases List.mem_append.mp hd with h | h
          · exact h1 d h
          · exact hret d h
        · exact h2
      · rw [removeDocsLRU_db]
        exact h2
  | search query k filterOptions includeValues =>
    rw [applyOp, similaritySearch]
    dsimp only
    split
    · apply magConsistent_save
      · exact (magConsistent_removeDocsLRU sqrtFn s h1 h2).1
      · rw [removeDocsLRU_db]
        exact h2
    · exact ⟨h1, h2⟩
  | load =>
    rw [applyOp]
    exact magConsistent_removeDocsLRU sqrtFn _ h2 h2
  | startTraining => exact ⟨h1, h2⟩
  | endTraining => exact ⟨h1, h2⟩
  | deleteByMetadata documentId =>
    rw [applyOp, deleteDocumentsByMetadata]
    apply magConsistent_save
    · intro d hd
      exact h1 d (List.mem_of_mem_filter hd)
    · exact h2

/-- Claim C10: every document inserted by `addDocuments` carries
`vectorMag` equal to the L2 norm — `Math.sqrt` (modelled by `sqrtFn`) of the
sum of squares — of its vector as assigned, and provided the backend records
the store was constructed from satisfy the same equation, it holds for every
in-memory document after every sequence of operations (vectors are never
mutated after assignment). -/
theorem vectorMag_equals_l2_norm (sqrtFn : ℚ → ℚ)
    (embedTextsFn : List String → List (List ℚ)) (db : List IVSDocument)
    (maxSizeInMB : ℚ) (ops : List Op)
    (hdb : ∀ d ∈ db, magConsistent sqrtFn d) :
    (∀ (s : VectorStorage) (documents : List IVSDocument),
      ∀ d ∈ (addDocuments sqrtFn embedTextsFn s documents).returned,
        magConsistent sqrtFn d) ∧
    ∀ d ∈ (runOps sqrtFn embedTextsFn (initStore db maxSizeInMB) ops).documents,
      magConsistent sqrtFn d := by
  constructor
  · intro s documents
    exact addDocuments_returned_magConsistent sqrtFn embedTextsFn s documents
  · have main : ∀ (rest : List Op) (s : VectorStorage),
        (∀ d ∈ s.documents, magConsistent sqrtFn d) →
        (∀ d ∈ s.db, magConsistent sqrtFn d) →
        ∀ d ∈ (runOps sqrtFn embedTextsFn s rest).documents,
          magConsistent sqrtFn d := by
      intro rest
      induction rest with
      | nil => intro s h1 _; exact h1
      | cons op rest' ih =>
        intro s h1 h2
        rw [runOps, List.foldl_cons]
        obtain ⟨g1, g2⟩ := applyOp_magConsistent sqrtFn embedTextsFn s op h1 h2
        exact ih _ g1 g2
    have hinit := magConsistent_removeDocsLRU sqrtFn
      { documents := db, db := db, maxSizeInMB := maxSizeInMB, trainingMode := true }
      hdb hdb
    exact main ops (initStore db maxSizeInMB) hinit.1 hinit.2

/-- Witness for the C10 theorem: a run that inserts one document into a fresh
empty store. -/
theorem vectorMag_equals_l2_norm_witness :
    (∀ d ∈ ([] : List IVSDocument), magConsistent (fun q => q) d) ∧
    ∀ d ∈ (runOps (fun q => q) embedConst1 (initStore [] 100)
        [Op.insert [mkDoc "a" [] 0]]).documents,
      magConsistent (fun q => q) d :=
  ⟨by simp, (vectorMag_equals_l2_norm (fun q => q) embedConst1 [] 100
    [Op.insert [mkDoc "a" [] 0]] (by simp)).2⟩
